import Mathlib

/-!
Shallow embedding of the risk engine under `src/` of the pm_updown_bot
bundle: Kelly sizing (`kelly.py`), Value-at-Risk (`var.py`), Monte Carlo
path simulation (`monte_carlo.py`) and the orchestrating `RiskManager`
(`risk_manager.py`), together with proofs about the embedded code.

Modelling conventions:
* Python floats are embedded as exact rationals (`ℚ`); arithmetic the
  float unit performs exactly on the inputs at issue (comparison, +, −,
  ×, ÷) is rational arithmetic here.
* The two transcendental operations the code uses (`math.sqrt` in the
  Gaussian VaR term, `math.log` inside the inverse-normal approximation
  of `_z_score`) are carried as explicit function parameters `sqrtA`
  (for `math.sqrt`) and `zA` (for the non-canonical branch of
  `_z_score`); no proved statement depends on their values, so every
  theorem quantifying over them holds for the real functions as well.
* Fallible code is embedded totally: a Python expression that raises
  (`ZeroDivisionError` from `x / 0.0`, `IndexError` from an
  out-of-range list subscript, `ValueError` from an explicit `raise`)
  becomes `Option.none` / `Except.error`.
* `round(x, n)` is Python's float rounding: round-half-to-even at the
  n-th decimal, embedded exactly over ℚ.
* Python's `sorted` on a numeric list is embedded as an ascending
  insertion sort (`sortAsc`), and `sorted(dict)` over the edge-tier
  keys as `sortTiers`.
* Reason / breach strings: the code interpolates formatted numbers into
  its human-readable strings; the embedding keeps the identifying tags
  (`"concurrent_positions"`, `"portfolio_risk"`, the fixed reason
  texts) and drops the interpolated digits, which no checked property
  reads.
-/

/-- Python `round(x, ·)` at integer granularity: round half to even. -/
def round_half_even (x : ℚ) : ℤ :=
  if x - ⌊x⌋ < 1/2 then ⌊x⌋
  else if 1/2 < x - ⌊x⌋ then ⌊x⌋ + 1
  else if ⌊x⌋ % 2 = 0 then ⌊x⌋ else ⌊x⌋ + 1

/-- Python `round(x, 2)`. -/
def round2 (x : ℚ) : ℚ := (round_half_even (100 * x) : ℚ) / 100

/-- Python `round(x, 4)`. -/
def round4 (x : ℚ) : ℚ := (round_half_even (10000 * x) : ℚ) / 10000

/-- One insertion step of Python's `sorted` (ascending, stable). -/
def insertSorted (x : ℚ) : List ℚ → List ℚ
  | [] => [x]
  | y :: ys => if x ≤ y then x :: y :: ys else y :: insertSorted x ys

/-- Python `sorted` on a list of floats (ascending). -/
def sortAsc : List ℚ → List ℚ
  | [] => []
  | x :: xs => insertSorted x (sortAsc xs)

/-- Insertion step for sorting the edge-tier table by threshold key. -/
def insertTier (x : ℚ × ℚ) : List (ℚ × ℚ) → List (ℚ × ℚ)
  | [] => [x]
  | y :: ys => if x.1 ≤ y.1 then x :: y :: ys else y :: insertTier x ys

/-- Python `sorted(cfg.edge_tiers)` over the tier table, keyed on the
threshold (dict keys are unique, so stability is irrelevant). -/
def sortTiers : List (ℚ × ℚ) → List (ℚ × ℚ)
  | [] => []
  | x :: xs => insertTier x (sortTiers xs)

/-- From `src/config.py` — `KellyConfig`.  The `edge_tiers` dict is embedded
as an association list of (threshold, multiplier) pairs. -/
structure KellyConfig where
  base_fraction : ℚ
  edge_tiers : List (ℚ × ℚ)
  min_bet_fraction : ℚ
  max_bet_fraction : ℚ
  min_edge : ℚ
  min_confidence : ℚ
deriving DecidableEq

/-- From `src/config.py` — `VaRConfig`. -/
structure VaRConfig where
  max_portfolio_risk : ℚ
  max_concurrent_positions : ℕ
  max_correlation : ℚ
  max_daily_loss_fraction : ℚ
  max_drawdown_fraction : ℚ
  stop_loss_fraction : ℚ
  confidence_level : ℚ
deriving DecidableEq

/-- From `src/config.py` — `BotConfig` (the Monte-Carlo and market-filter
groups are not consumed by any embedded operation and are omitted;
`simulate_path` receives its parameters positionally). -/
structure BotConfig where
  bankroll : ℚ
  kelly : KellyConfig
  var : VaRConfig
deriving DecidableEq

/-- From `src/config.py` — `DEFAULT_CONFIG` (the module-level singleton,
with every numeric default carried over exactly). -/
def DEFAULT_CONFIG : BotConfig :=
  { bankroll := 5000
    kelly :=
      { base_fraction := 1/4
        edge_tiers := [(1/20, 1/4), (1/10, 7/20), (3/20, 1/2)]
        min_bet_fraction := 1/200
        max_bet_fraction := 1/20
        min_edge := 1/20
        min_confidence := 3/5 }
    var :=
      { max_portfolio_risk := 1/5
        max_concurrent_positions := 10
        max_correlation := 7/10
        max_daily_loss_fraction := 1/50
        max_drawdown_fraction := 3/20
        stop_loss_fraction := 1/20
        confidence_level := 19/20 } }

/-- From `src/kelly.py` — `KellyResult`. -/
structure KellyResult where
  raw_fraction : ℚ
  scaled_fraction : ℚ
  bet_size : ℚ
  edge : ℚ
  expected_value : ℚ
  kelly_multiplier : ℚ
deriving DecidableEq

/-- From `src/kelly.py` — `classic_kelly`. -/
def classic_kelly (prob_win odds_decimal : ℚ) : ℚ :=
  if prob_win ≤ 0 ∨ 1 ≤ prob_win ∨ odds_decimal ≤ 1 then 0
  else
    let b := odds_decimal - 1
    let q := 1 - prob_win
    max ((prob_win * b - q) / b) 0

/-- From `src/kelly.py` — `edge_for_binary`. -/
def edge_for_binary (prob_win market_prob : ℚ) : ℚ := prob_win - market_prob

/-- From `src/kelly.py` — `_kelly_multiplier`: scan the tier thresholds in
ascending order, the last tier whose threshold is ≤ edge wins. -/
def kelly_multiplier (edge : ℚ) (cfg : KellyConfig) : ℚ :=
  (sortTiers cfg.edge_tiers).foldl
    (fun m tm => if tm.1 ≤ edge then tm.2 else m) cfg.base_fraction

/-- From `src/kelly.py` — `size_bet`. -/
def size_bet (prob_win market_prob bankroll : ℚ) (config : BotConfig) : KellyResult :=
  let cfg := config.kelly
  let edge := edge_for_binary prob_win market_prob
  if edge < cfg.min_edge ∨ prob_win < cfg.min_confidence then
    { raw_fraction := 0, scaled_fraction := 0, bet_size := 0
      edge := edge, expected_value := 0, kelly_multiplier := 0 }
  else
    let odds_decimal := if 0 < market_prob then 1 / market_prob else 0
    let raw_f := classic_kelly prob_win odds_decimal
    let multiplier := kelly_multiplier edge cfg
    let scaled_f := min (max (raw_f * multiplier) cfg.min_bet_fraction) cfg.max_bet_fraction
    let bet_usd := round2 (scaled_f * bankroll)
    { raw_fraction := raw_f, scaled_fraction := scaled_f, bet_size := bet_usd
      edge := edge, expected_value := edge * bet_usd, kelly_multiplier := multiplier }

/-- From `src/kelly.py` — `multi_outcome_kelly`.  The explicit
`raise ValueError` on a length mismatch becomes `Except.error`. -/
def multi_outcome_kelly (probabilities market_prices : List ℚ)
    (bankroll : ℚ) (fraction : ℚ) : Except String (List ℚ) :=
  let n := probabilities.length
  if n ≠ market_prices.length then
    .error ("probabilities and market_prices must have same length")
  else
    let raw := List.zipWith
      (fun p mp => if mp ≤ 0 ∨ 1 ≤ mp then 0 else max (classic_kelly p (1 / mp)) 0)
      probabilities market_prices
    let total := raw.sum
    if total ≤ 0 then .ok (List.replicate n 0)
    else
      let scale := min (fraction / total) 1
      .ok (raw.map (fun r => round2 (r * scale * bankroll)))

/-- From `src/var.py` — `Position`. -/
structure Position where
  market_id : String
  side : String
  entry_price : ℚ
  quantity : ℚ
  current_price : ℚ
  category : String
deriving DecidableEq

/-- From `Position.cost_basis`. -/
def Position.cost_basis (p : Position) : ℚ := p.quantity * p.entry_price

/-- From `Position.market_value`. -/
def Position.market_value (p : Position) : ℚ := p.quantity * p.current_price

/-- From `Position.max_loss`. -/
def Position.max_loss (p : Position) : ℚ :=
  if p.side = "YES" then p.cost_basis else p.quantity * (1 - p.entry_price)

/-- From `src/var.py` — `VaRResult`. -/
structure VaRResult where
  var_usd : ℚ
  var_pct : ℚ
  total_exposure : ℚ
  max_possible_loss : ℚ
  num_positions : ℕ
  breaches : List String
deriving DecidableEq

/-- From `src/var.py` — `_z_score`: the canonical table for confidence
0.90/0.95/0.99, otherwise the Beasley–Springer–Moro approximation,
which uses `math.log`/`math.sqrt` and is carried abstractly as `zA`. -/
def z_score (zA : ℚ → ℚ) (confidence : ℚ) : ℚ :=
  if confidence = 9/10 then 1282/1000
  else if confidence = 19/20 then 1645/1000
  else if confidence = 99/100 then 2326/1000
  else zA confidence

/-- Per-position win probability in `parametric_var`. -/
def pvar_p_win (pos : Position) : ℚ :=
  if pos.side = "YES" then pos.current_price else 1 - pos.current_price

/-- Per-position gain-if-win in `parametric_var`. -/
def pvar_gain_if_win (pos : Position) : ℚ :=
  if pos.side = "YES" then pos.quantity - pos.cost_basis
  else pos.quantity * pos.entry_price - pos.cost_basis

/-- Per-position expected loss in `parametric_var`. -/
def pvar_exp_loss (pos : Position) : ℚ :=
  (1 - pvar_p_win pos) * pos.max_loss - pvar_p_win pos * max (pvar_gain_if_win pos) 0

/-- Per-position variance contribution in `parametric_var`. -/
def pvar_variance (pos : Position) : ℚ :=
  pvar_p_win pos * (1 - pvar_p_win pos) * (pos.max_loss + max (pvar_gain_if_win pos) 0) ^ 2

/-- From `src/var.py` — `parametric_var`.  The breach check divides
`total_exposure / bankroll` with no guard, so a call with a non-empty
position list and `bankroll = 0` raises `ZeroDivisionError` in the
source; that is `none` here.  `sqrtA` stands for `math.sqrt`. -/
def parametric_var (sqrtA zA : ℚ → ℚ) (positions : List Position)
    (bankroll : ℚ) (config : BotConfig) : Option VaRResult :=
  let cfg := config.var
  if positions = [] then
    some { var_usd := 0, var_pct := 0, total_exposure := 0
           max_possible_loss := 0, num_positions := 0, breaches := [] }
  else
    let mu := (positions.map pvar_exp_loss).sum
    let sigma := sqrtA (positions.map pvar_variance).sum
    let z := z_score zA cfg.confidence_level
    let var_usd := max (mu + z * sigma) 0
    let total_exposure := (positions.map Position.cost_basis).sum
    let max_loss := (positions.map Position.max_loss).sum
    let var_pct := if 0 < bankroll then var_usd / bankroll else 0
    if bankroll = 0 then none
    else
      let breaches :=
        (if cfg.max_concurrent_positions < positions.length
         then ["concurrent_positions"] else []) ++
        (if cfg.max_portfolio_risk < total_exposure / bankroll
         then ["portfolio_risk"] else [])
      some { var_usd := round2 var_usd, var_pct := round4 var_pct
             total_exposure := round2 total_exposure
             max_possible_loss := round2 max_loss
             num_positions := positions.length, breaches := breaches }

/-- From `src/var.py` — `historical_var`.  An out-of-range subscript of the
sorted series (possible once `confidence ≤ 0`) raises `IndexError` in
the source; that is `none` here. -/
def historical_var (daily_returns : List ℚ) (confidence : ℚ) : Option ℚ :=
  if daily_returns = [] then some 0
  else
    let sorted_returns := sortAsc daily_returns
    let idx := (max ⌊(1 - confidence) * (daily_returns.length : ℚ)⌋ 0).toNat
    (sorted_returns[idx]?).map (fun v => max (-v) 0)

/-- From `src/var.py` — `check_daily_loss`. -/
def check_daily_loss (daily_pnl bankroll : ℚ) (config : BotConfig) : Bool :=
  if bankroll ≤ 0 then true
  else daily_pnl / bankroll ≤ -config.var.max_daily_loss_fraction

/-- From `src/var.py` — `check_drawdown`. -/
def check_drawdown (current_equity peak_equity : ℚ) (config : BotConfig) : Bool :=
  if peak_equity ≤ 0 then true
  else config.var.max_drawdown_fraction ≤ (peak_equity - current_equity) / peak_equity

/-- From `src/var.py` — `check_stop_loss`.  The guard covers only
`entry_price ≤ 0`; the NO branch divides by `1 - entry_price`, so a NO
position with `entry_price = 1` raises `ZeroDivisionError` (`none`). -/
def check_stop_loss (position : Position) (config : BotConfig) : Option Bool :=
  let cfg := config.var
  if position.entry_price ≤ 0 then some true
  else
    let loss_frac := (position.entry_price - position.current_price) / position.entry_price
    if position.side = "NO" then
      if position.entry_price = 1 then none
      else some (decide (cfg.stop_loss_fraction ≤
        (position.current_price - position.entry_price) / (1 - position.entry_price)))
    else some (decide (cfg.stop_loss_fraction ≤ loss_frac))

/-- From `src/monte_carlo.py` — the loop body state of `simulate_path`:
`(equity, peak, max_dd)` plus the index into the random stream. -/
def simulate_path_go (win_rate avg_edge kelly_fraction min_bet_frac max_bet_frac : ℚ)
    (rng : ℕ → ℚ) : ℕ → ℕ → ℚ → ℚ → ℚ → ℚ × ℚ
  | 0, _, equity, _, max_dd => (equity, max_dd)
  | n + 1, i, equity, peak, max_dd =>
    if equity ≤ 0 then (equity, max_dd)
    else
      let market_prob := max (win_rate - avg_edge) (1/100)
      let odds := 1 / market_prob
      let b := odds - 1
      let q := 1 - win_rate
      let raw_f := max (if 0 < b then (win_rate * b - q) / b else 0) 0
      let scaled_f := min (max (raw_f * kelly_fraction) min_bet_frac) max_bet_frac
      let bet := scaled_f * equity
      let equity' := if rng i < win_rate then equity + bet * b else equity - bet
      let peak' := if peak < equity' then equity' else peak
      let dd := if 0 < peak' then (peak' - equity') / peak' else 0
      let max_dd' := if max_dd < dd then dd else max_dd
      simulate_path_go win_rate avg_edge kelly_fraction min_bet_frac max_bet_frac
        rng n (i + 1) equity' peak' max_dd'

/-- From `src/monte_carlo.py` — `simulate_path`.  The random source is the
stream `rng : ℕ → ℚ` of successive `rng.random()` draws; `int(x)` for
the trade count truncates toward zero, which on the embedding's
non-negative counts equals `Int.toNat ∘ Int.floor`. -/
def simulate_path (bankroll win_rate avg_edge kelly_fraction trades_per_day : ℚ)
    (horizon_days : ℕ) (min_bet_frac max_bet_frac : ℚ) (rng : ℕ → ℚ) : ℚ × ℚ :=
  let total_trades := (⌊trades_per_day * (horizon_days : ℚ)⌋).toNat
  simulate_path_go win_rate avg_edge kelly_fraction min_bet_frac max_bet_frac
    rng total_trades 0 bankroll bankroll 0

/-- From `src/risk_manager.py` — `TradeDecision`. -/
structure TradeDecision where
  action : String
  reason : String
  kelly : KellyResult
  var : VaRResult
  stop_loss_triggered : Bool
  daily_loss_halt : Bool
  drawdown_halt : Bool
deriving DecidableEq

/-- From `src/risk_manager.py` — the mutable fields of a `RiskManager`
instance (its `config` plus the portfolio state). -/
structure RMState where
  config : BotConfig
  bankroll : ℚ
  peak_equity : ℚ
  positions : List Position
  daily_pnl : ℚ
deriving DecidableEq

/-- From `RiskManager.__init__`. -/
def RMState.init (config : BotConfig) : RMState :=
  { config := config, bankroll := config.bankroll, peak_equity := config.bankroll
    positions := [], daily_pnl := 0 }

/-- From `RiskManager._current_var`. -/
def current_var (sqrtA zA : ℚ → ℚ) (s : RMState) : Option VaRResult :=
  parametric_var sqrtA zA s.positions s.bankroll s.config

/-- The hypothetical YES position `evaluate_trade` builds for its VaR
check. -/
def hypo_position (market_prob : ℚ) (bet_size : ℚ) (market_id category : String) : Position :=
  { market_id := if market_id = "" then "PROPOSED" else market_id
    side := "YES"
    entry_price := market_prob
    quantity := if 0 < market_prob then bet_size / market_prob else 0
    current_price := market_prob
    category := category }

/-- From `src/risk_manager.py` — `RiskManager.evaluate_trade`.  The method
mutates nothing, so the embedding threads the state through and pairs
the decision with the (unchanged) state; `none` is a raised exception
(a `ZeroDivisionError` escaping `parametric_var`). -/
def evaluate_trade (sqrtA zA : ℚ → ℚ) (s : RMState)
    (prob_win market_prob : ℚ) (market_id category : String) :
    Option (TradeDecision × RMState) :=
  let kelly_res := size_bet prob_win market_prob s.bankroll s.config
  if check_daily_loss s.daily_pnl s.bankroll s.config then
    (current_var sqrtA zA s).map (fun v =>
      ({ action := "HALT", reason := "daily loss limit breached"
         kelly := kelly_res, var := v, stop_loss_triggered := false
         daily_loss_halt := true, drawdown_halt := false }, s))
  else if check_drawdown s.bankroll s.peak_equity s.config then
    (current_var sqrtA zA s).map (fun v =>
      ({ action := "HALT", reason := "max drawdown breached"
         kelly := kelly_res, var := v, stop_loss_triggered := false
         daily_loss_halt := false, drawdown_halt := true }, s))
  else if kelly_res.bet_size ≤ 0 then
    (current_var sqrtA zA s).map (fun v =>
      ({ action := "SKIP", reason := "insufficient edge"
         kelly := kelly_res, var := v, stop_loss_triggered := false
         daily_loss_halt := false, drawdown_halt := false }, s))
  else
    let hypo_pos := hypo_position market_prob kelly_res.bet_size market_id category
    (parametric_var sqrtA zA (s.positions ++ [hypo_pos]) s.bankroll s.config).map
      (fun v =>
        if v.breaches ≠ [] then
          ({ action := "SKIP"
             reason := "VaR breaches: " ++ String.intercalate ("; ") v.breaches
             kelly := kelly_res, var := v, stop_loss_triggered := false
             daily_loss_halt := false, drawdown_halt := false }, s)
        else
          ({ action := "TRADE", reason := "edge and bet approved"
             kelly := kelly_res, var := v, stop_loss_triggered := false
             daily_loss_halt := false, drawdown_halt := false }, s))

/-- From `src/risk_manager.py` — `RiskManager.open_position`. -/
def open_position (s : RMState) (position : Position) : RMState :=
  { s with positions := s.positions ++ [position] }

/-- The realised P&L `close_position` computes from a found position. -/
def settle_pnl (pos : Position) (settlement_price : ℚ) : ℚ :=
  if pos.side = "YES" then pos.quantity * (settlement_price - pos.entry_price)
  else pos.quantity * (pos.entry_price - settlement_price)

/-- From `src/risk_manager.py` — `RiskManager.close_position`: returns the
rounded realised P&L together with the updated state. -/
def close_position (s : RMState) (market_id : String) (settlement_price : ℚ) :
    ℚ × RMState :=
  match s.positions.find? (fun p => p.market_id == market_id) with
  | none => (0, s)
  | some pos =>
    let pnl := settle_pnl pos settlement_price
    let bankroll' := s.bankroll + pnl
    let peak' := if s.peak_equity < bankroll' then bankroll' else s.peak_equity
    (round2 pnl,
     { s with bankroll := bankroll'
              daily_pnl := s.daily_pnl + pnl
              peak_equity := peak'
              positions := s.positions.filter (fun p => p.market_id != market_id) })

/-- From `src/risk_manager.py` — `RiskManager.reset_daily_pnl`. -/
def reset_daily_pnl (s : RMState) : RMState := { s with daily_pnl := 0 }

/-- Transcendental stand-in used when instantiating theorems that hold
for every `sqrtA`/`zA` at concrete inputs. -/
def zf : ℚ → ℚ := fun _ => 0

/-- A concrete YES position used in concrete instantiations. -/
def cexPos : Position :=
  { market_id := "m1", side := "YES", entry_price := 1/2, quantity := 100
    current_price := 1/2, category := "" }

/-- A `RiskManager` state with zero bankroll and one open position. -/
def cexZeroBankState : RMState :=
  { config := DEFAULT_CONFIG, bankroll := 0, peak_equity := 5000
    positions := [cexPos], daily_pnl := 0 }

/-- A state whose daily P&L is −4 % of bankroll (daily-loss halt). -/
def dailyLossState : RMState :=
  { config := DEFAULT_CONFIG, bankroll := 5000, peak_equity := 5000
    positions := [], daily_pnl := -200 }

/-- A fresh default state with no open positions. -/
def healthyState : RMState :=
  { config := DEFAULT_CONFIG, bankroll := 5000, peak_equity := 5000
    positions := [], daily_pnl := 0 }

/-- A state holding two distinct open positions with the same market id. -/
def dupState : RMState :=
  { config := DEFAULT_CONFIG, bankroll := 5000, peak_equity := 5000
    positions := [cexPos, { cexPos with quantity := 40, entry_price := 1/4 }]
    daily_pnl := 0 }

/-- The decision `evaluate_trade` produces on `dailyLossState`. -/
def dailyLossDecision : TradeDecision :=
  { action := "HALT", reason := "daily loss limit breached"
    kelly := size_bet (7/10) (11/20) 5000 DEFAULT_CONFIG
    var := { var_usd := 0, var_pct := 0, total_exposure := 0
             max_possible_loss := 0, num_positions := 0, breaches := [] }
    stop_loss_triggered := false, daily_loss_halt := true, drawdown_halt := false }

/-- Round-half-to-even never overshoots by more than one half. -/
theorem round_half_even_le (x : ℚ) : (round_half_even x : ℚ) ≤ x + 1/2 := by
  have hf := Int.floor_le x
  have hf2 := Int.lt_floor_add_one x
  unfold round_half_even
  split_ifs <;> push_cast <;> linarith

/-- Round-half-to-even of anything above one half is at least one. -/
theorem one_le_round_half_even {x : ℚ} (h : 1/2 < x) : 1 ≤ round_half_even x := by
  have hf := Int.floor_le x
  have hf2 := Int.lt_floor_add_one x
  have hnn : (0 : ℤ) ≤ ⌊x⌋ := Int.floor_nonneg.mpr (by linarith)
  unfold round_half_even
  split_ifs with h1 h2 h3
  · have hq : (0 : ℚ) < (⌊x⌋ : ℚ) := by linarith
    have h4 : (0 : ℤ) < ⌊x⌋ := by exact_mod_cast hq
    omega
  · omega
  · have hle : x - ⌊x⌋ ≤ 1/2 := not_lt.mp h2
    have hq : (0 : ℚ) < (⌊x⌋ : ℚ) := by linarith
    have h4 : (0 : ℤ) < ⌊x⌋ := by exact_mod_cast hq
    omega
  · omega

/-- Two-decimal rounding never overshoots by more than 1/200. -/
theorem round2_le (x : ℚ) : round2 x ≤ x + 1/200 := by
  have := round_half_even_le (100 * x)
  unfold round2
  linarith

/-- Two-decimal rounding keeps anything above 1/200 strictly positive. -/
theorem round2_pos {x : ℚ} (h : 1/200 < x) : 0 < round2 x := by
  have h1 : 1/2 < 100 * x := by linarith
  have h2 := one_le_round_half_even h1
  have h3 : (1 : ℚ) ≤ (round_half_even (100 * x) : ℚ) := by exact_mod_cast h2
  unfold round2
  linarith

/-- Inserting into a list grows its length by one. -/
theorem length_insertSorted (x : ℚ) (l : List ℚ) :
    (insertSorted x l).length = l.length + 1 := by
  induction l with
  | nil => rfl
  | cons y ys ih =>
    unfold insertSorted
    split <;> simp [ih]

/-- Sorting preserves length. -/
theorem length_sortAsc (l : List ℚ) : (sortAsc l).length = l.length := by
  induction l with
  | nil => rfl
  | cons x xs ih => simp [sortAsc, length_insertSorted, ih]

/-- Membership in an insertion step. -/
theorem mem_insertSorted {a x : ℚ} {l : List ℚ} :
    a ∈ insertSorted x l ↔ a = x ∨ a ∈ l := by
  induction l with
  | nil => simp [insertSorted]
  | cons y ys ih =>
    unfold insertSorted
    split
    · simp
    · simp [ih]
      tauto

/-- Sorting preserves membership. -/
theorem mem_sortAsc {a : ℚ} {l : List ℚ} : a ∈ sortAsc l ↔ a ∈ l := by
  induction l with
  | nil => simp [sortAsc]
  | cons x xs ih => simp [sortAsc, mem_insertSorted, ih]

/-- Summing two-decimal roundings of scaled entries overshoots the
scaled sum by at most 1/200 per entry. -/
theorem sum_map_round2_le (l : List ℚ) (c : ℚ) :
    (l.map (fun r => round2 (r * c))).sum ≤ l.sum * c + (l.length : ℚ) / 200 := by
  induction l with
  | nil => simp
  | cons x xs ih =>
    have hx := round2_le (x * c)
    simp only [List.map_cons, List.sum_cons, List.length_cons]
    push_cast
    have : xs.sum * c + (xs.length : ℚ) / 200 + (x * c + 1/200) =
        (x + xs.sum) * c + ((xs.length : ℚ) + 1) / 200 := by ring
    linarith

/-- If an option maps into pairs whose second component is constant,
any produced pair carries that constant. -/
theorem option_map_snd_const {α β γ : Type} {o : Option α} {f : α → β × γ} (c : γ)
    {d : β} {s' : γ} (h : o.map f = some (d, s')) (hf : ∀ v, (f v).2 = c) : s' = c := by
  cases o with
  | none => simp at h
  | some v =>
    simp only [Option.map_some', Option.some.injEq] at h
    have := hf v
    rw [h] at this
    exact this

/-- C8: `simulate_path` is deterministic: two invocations with the same
arguments and pointwise-identical random sources return the same
`(final_bankroll, max_drawdown_fraction)` pair. -/
theorem simulate_path_deterministic
    (bankroll win_rate avg_edge kelly_fraction trades_per_day : ℚ)
    (horizon_days : ℕ) (min_bet_frac max_bet_frac : ℚ)
    (rng₁ rng₂ : ℕ → ℚ) (h : ∀ i, rng₁ i = rng₂ i) :
    simulate_path bankroll win_rate avg_edge kelly_fraction trades_per_day
      horizon_days min_bet_frac max_bet_frac rng₁ =
    simulate_path bankroll win_rate avg_edge kelly_fraction trades_per_day
      horizon_days min_bet_frac max_bet_frac rng₂ := by
  have hr : rng₁ = rng₂ := funext h
  rw [hr]

/-- Witness for C8 at the spec's canonical parameters and a constant
random source. -/
theorem simulate_path_deterministic_witness :
    simulate_path 5000 (29/50) (2/25) (1/4) 2 365 (1/200) (1/20) (fun _ => 1/2) =
    simulate_path 5000 (29/50) (2/25) (1/4) 2 365 (1/200) (1/20) (fun _ => 1/2) :=
  simulate_path_deterministic 5000 (29/50) (2/25) (1/4) 2 365 (1/200) (1/20)
    (fun _ => 1/2) (fun _ => 1/2) (fun _ => rfl)

/-- C9: `check_stop_loss` is guarded only against `entry_price ≤ 0`:
a NO position with entry price exactly 1 makes the loss-fraction
division by `1 − entry_price = 0` undefined (the call fails), while
every NO position with `0 < entry_price < 1` is evaluated. -/
theorem check_stop_loss_no_entry_one (cfg : BotConfig) (mid cat : String) (q cur : ℚ) :
    check_stop_loss
      { market_id := mid, side := "NO", entry_price := 1, quantity := q
        current_price := cur, category := cat } cfg = none ∧
    (∀ entry : ℚ, 0 < entry → entry < 1 →
      (check_stop_loss
        { market_id := mid, side := "NO", entry_price := entry, quantity := q
          current_price := cur, category := cat } cfg).isSome = true) := by
  constructor
  · simp [check_stop_loss]
  · intro entry h0 h1
    simp [check_stop_loss, not_le.mpr h0, ne_of_lt h1]

/-- Witness for C9: the failing entry price 1 and a passing entry 1/2. -/
theorem check_stop_loss_no_entry_one_witness :
    check_stop_loss
      { market_id := "m", side := "NO", entry_price := 1, quantity := 100
        current_price := 3/4, category := "" } DEFAULT_CONFIG = none ∧
    (check_stop_loss
      { market_id := "m", side := "NO", entry_price := 1/2, quantity := 100
        current_price := 3/4, category := "" } DEFAULT_CONFIG).isSome = true :=
  ⟨(check_stop_loss_no_entry_one DEFAULT_CONFIG ("m") ("") 100 (3/4)).1,
   (check_stop_loss_no_entry_one DEFAULT_CONFIG ("m") ("") 100 (3/4)).2 (1/2)
     (by norm_num) (by norm_num)⟩

/-- C4: `close_position` is a no-op returning 0.0 when no open position
carries the market id; otherwise it realises quantity × (settlement −
entry) for YES and quantity × (entry − settlement) for NO, adds that
P&L to bankroll and daily P&L, raises peak equity only when the new
bankroll exceeds it, removes the position, and returns the rounded
P&L. -/
theorem close_position_spec (s : RMState) (mid : String) (sp : ℚ) :
    ((∀ p ∈ s.positions, p.market_id ≠ mid) → close_position s mid sp = (0, s)) ∧
    (∀ pos, s.positions.find? (fun p => p.market_id == mid) = some pos →
      (pos.side = "YES" → settle_pnl pos sp = pos.quantity * (sp - pos.entry_price)) ∧
      (pos.side ≠ "YES" → settle_pnl pos sp = pos.quantity * (pos.entry_price - sp)) ∧
      close_position s mid sp =
        (round2 (settle_pnl pos sp),
         { config := s.config
           bankroll := s.bankroll + settle_pnl pos sp
           peak_equity := if s.peak_equity < s.bankroll + settle_pnl pos sp
                          then s.bankroll + settle_pnl pos sp else s.peak_equity
           positions := s.positions.filter (fun p => p.market_id != mid)
           daily_pnl := s.daily_pnl + settle_pnl pos sp })) := by
  constructor
  · intro hno
    have hfind : s.positions.find? (fun p => p.market_id == mid) = none := by
      rw [List.find?_eq_none]
      intro p hp
      simpa using hno p hp
    simp [close_position, hfind]
  · intro pos hfind
    refine ⟨fun hy => by simp [settle_pnl, hy], fun hn => by simp [settle_pnl, hn], ?_⟩
    simp [close_position, hfind]

/-- Witness for C4: the spec's worked example (YES, entry 0.50,
quantity 100, settlement 1.0 realises +50.00) and a close on an
unknown id leaving the state untouched. -/
theorem close_position_spec_witness :
    close_position
      { config := DEFAULT_CONFIG, bankroll := 5000, peak_equity := 5000
        positions := [cexPos], daily_pnl := 0 } ("m1") 1 =
      (50, { config := DEFAULT_CONFIG, bankroll := 5050, peak_equity := 5050
             positions := [], daily_pnl := 50 }) ∧
    close_position healthyState ("zzz") 1 = (0, healthyState) := by
  constructor
  · have h := (close_position_spec
      { config := DEFAULT_CONFIG, bankroll := 5000, peak_equity := 5000
        positions := [cexPos], daily_pnl := 0 } ("m1") 1).2 cexPos
      (by simp [cexPos, List.find?])
    rw [h.2.2]
    norm_num [settle_pnl, cexPos, round2, round_half_even, List.filter]
  · exact (close_position_spec healthyState ("zzz") 1).1
      (by intro p hp; simp [healthyState] at hp)

/-- C10: with several open positions sharing the given market id,
`close_position` realises P&L from only the first match (the one
`find?` returns) but removes every position carrying that id, so the
other matches vanish without their P&L ever being realised. -/
theorem close_position_duplicate_ids (s : RMState) (mid : String) (sp : ℚ)
    (pos : Position)
    (hfind : s.positions.find? (fun p => p.market_id == mid) = some pos) :
    (close_position s mid sp).1 = round2 (settle_pnl pos sp) ∧
    (close_position s mid sp).2.bankroll = s.bankroll + settle_pnl pos sp ∧
    (close_position s mid sp).2.daily_pnl = s.daily_pnl + settle_pnl pos sp ∧
    (close_position s mid sp).2.positions =
      s.positions.filter (fun p => p.market_id != mid) ∧
    ∀ p ∈ (close_position s mid sp).2.positions, p.market_id ≠ mid := by
  refine ⟨by simp [close_position, hfind], by simp [close_position, hfind],
    by simp [close_position, hfind], by simp [close_position, hfind], ?_⟩
  intro p hp
  simp only [close_position, hfind] at hp
  have := List.of_mem_filter hp
  simpa using this

/-- Witness for C10: two positions share id "m1"; the first (YES,
entry 0.50, qty 100) alone sets the realised P&L at settlement 1.0,
and both are removed. -/
theorem close_position_duplicate_ids_witness :
    (close_position dupState ("m1") 1).1 = round2 (settle_pnl cexPos 1) ∧
    (close_position dupState ("m1") 1).2.bankroll =
      dupState.bankroll + settle_pnl cexPos 1 ∧
    (close_position dupState ("m1") 1).2.positions = [] := by
  have h := close_position_duplicate_ids dupState ("m1") 1 cexPos
    (by simp [dupState, cexPos, List.find?])
  refine ⟨h.1, h.2.1, ?_⟩
  rw [h.2.2.2.1]
  simp [dupState, cexPos, List.filter]

/-- C7: `evaluate_trade` never changes the orchestrator state; among
the lifecycle operations, `open_position` and `reset_daily_pnl` leave
the bankroll untouched, and `close_position` is the only operation
that changes the bankroll — by adding the realised P&L with no
clamping (0 when no position matches). -/
theorem rm_state_frame (sqrtA zA : ℚ → ℚ) :
    (∀ (s : RMState) (pw mp : ℚ) (mid cat : String) (d : TradeDecision)
        (s' : RMState),
      evaluate_trade sqrtA zA s pw mp mid cat = some (d, s') → s' = s) ∧
    (∀ (s : RMState) (p : Position),
      (open_position s p).bankroll = s.bankroll ∧
      (open_position s p).peak_equity = s.peak_equity ∧
      (open_position s p).daily_pnl = s.daily_pnl) ∧
    (∀ s : RMState,
      (reset_daily_pnl s).bankroll = s.bankroll ∧
      (reset_daily_pnl s).peak_equity = s.peak_equity ∧
      (reset_daily_pnl s).positions = s.positions) ∧
    (∀ (s : RMState) (mid : String) (sp : ℚ),
      (close_position s mid sp).2.bankroll =
        s.bankroll + (match s.positions.find? (fun p => p.market_id == mid) with
                      | none => 0
                      | some pos => settle_pnl pos sp)) := by
  refine ⟨?_, fun s p => ⟨rfl, rfl, rfl⟩, fun s => ⟨rfl, rfl, rfl⟩, ?_⟩
  · intro s pw mp mid cat d s' h
    simp only [evaluate_trade] at h
    split_ifs at h with h1 h2 h3
    · exact option_map_snd_const s h (fun v => rfl)
    · exact option_map_snd_const s h (fun v => rfl)
    · exact option_map_snd_const s h (fun v => rfl)
    · exact option_map_snd_const s h (fun v => by split <;> rfl)
  · intro s mid sp
    cases hfind : s.positions.find? (fun p => p.market_id == mid) with
    | none => simp [close_position, hfind]
    | some pos => simp [close_position, hfind]

/-- Witness for C7: a concrete evaluation on the daily-loss state
returns a decision and, by the frame property, the unchanged state. -/
theorem rm_state_frame_witness :
    ∃ p : TradeDecision × RMState,
      evaluate_trade zf zf dailyLossState (7/10) (11/20) ("m2") ("") = some p ∧
      p.2 = dailyLossState := by
  have hEval : evaluate_trade zf zf dailyLossState (7/10) (11/20) ("m2") ("") =
      some (dailyLossDecision, dailyLossState) := by
    norm_num [evaluate_trade, check_daily_loss, current_var, parametric_var,
      dailyLossState, dailyLossDecision, DEFAULT_CONFIG]
  exact ⟨(dailyLossDecision, dailyLossState), hEval,
    (rm_state_frame zf zf).1 dailyLossState (7/10) (11/20) ("m2") ("")
      dailyLossDecision dailyLossState hEval⟩

/-- C1 (amended): whenever `evaluate_trade` returns a decision at all
(the embedded call does not fault in `parametric_var`), the decision
follows the fixed priority order: daily-loss halt first, then drawdown
halt, then SKIP on non-positive Kelly bet size, then the
hypothetical-position VaR check deciding SKIP (breaches present) vs
TRADE (no breaches). -/
theorem evaluate_trade_priority (sqrtA zA : ℚ → ℚ) (s : RMState)
    (pw mp : ℚ) (mid cat : String) (d : TradeDecision) (s' : RMState)
    (h : evaluate_trade sqrtA zA s pw mp mid cat = some (d, s')) :
    (check_daily_loss s.daily_pnl s.bankroll s.config = true →
      d.action = "HALT" ∧ d.daily_loss_halt = true) ∧
    (check_daily_loss s.daily_pnl s.bankroll s.config = false →
      check_drawdown s.bankroll s.peak_equity s.config = true →
      d.action = "HALT" ∧ d.drawdown_halt = true ∧ d.daily_loss_halt = false) ∧
    (check_daily_loss s.daily_pnl s.bankroll s.config = false →
      check_drawdown s.bankroll s.peak_equity s.config = false →
      (size_bet pw mp s.bankroll s.config).bet_size ≤ 0 →
      d.action = "SKIP") ∧
    (check_daily_loss s.daily_pnl s.bankroll s.config = false →
      check_drawdown s.bankroll s.peak_equity s.config = false →
      0 < (size_bet pw mp s.bankroll s.config).bet_size →
      ∃ v, parametric_var sqrtA zA
          (s.positions ++
            [hypo_position mp (size_bet pw mp s.bankroll s.config).bet_size mid cat])
          s.bankroll s.config = some v ∧
        d.var = v ∧ d.kelly = size_bet pw mp s.bankroll s.config ∧
        d.action = (if v.breaches = [] then "TRADE" else "SKIP")) := by
  simp only [evaluate_trade] at h
  split_ifs at h with h1 h2 h3
  · cases hcv : current_var sqrtA zA s with
    | none => rw [hcv] at h; simp at h
    | some v =>
      rw [hcv] at h
      simp only [Option.map_some', Option.some.injEq, Prod.mk.injEq] at h
      refine ⟨fun _ => ?_, fun hf => ?_, fun hf _ _ => ?_, fun hf _ _ => ?_⟩
      · rw [← h.1]
        exact ⟨rfl, rfl⟩
      · rw [h1] at hf; cases hf
      · rw [h1] at hf; cases hf
      · rw [h1] at hf; cases hf
  · cases hcv : current_var sqrtA zA s with
    | none => rw [hcv] at h; simp at h
    | some v =>
      rw [hcv] at h
      simp only [Option.map_some', Option.some.injEq, Prod.mk.injEq] at h
      have hdl : check_daily_loss s.daily_pnl s.bankroll s.config = false :=
        Bool.not_eq_true _ ▸ (by simpa using h1)
      refine ⟨fun ht => ?_, fun _ _ => ?_, fun _ hf _ => ?_, fun _ hf _ => ?_⟩
      · rw [hdl] at ht; cases ht
      · rw [← h.1]
        exact ⟨rfl, rfl, rfl⟩
      · rw [h2] at hf; cases hf
      · rw [h2] at hf; cases hf
  · cases hcv : current_var sqrtA zA s with
    | none => rw [hcv] at h; simp at h
    | some v =>
      rw [hcv] at h
      simp only [Option.map_some', Option.some.injEq, Prod.mk.injEq] at h
      have hdl : check_daily_loss s.daily_pnl s.bankroll s.config = false := by
        simpa using h1
      have hdd : check_drawdown s.bankroll s.peak_equity s.config = false := by
        simpa using h2
      refine ⟨fun ht => ?_, fun _ ht => ?_, fun _ _ _ => ?_, fun _ _ hpos => ?_⟩
      · rw [hdl] at ht; cases ht
      · rw [hdd] at ht; cases ht
      · rw [← h.1]
      · exact absurd hpos (not_lt.mpr h3)
  · cases hpv : parametric_var sqrtA zA
        (s.positions ++
          [hypo_position mp (size_bet pw mp s.bankroll s.config).bet_size mid cat])
        s.bankroll s.config with
    | none => rw [hpv] at h; simp at h
    | some v =>
      rw [hpv] at h
      simp only [Option.map_some', Option.some.injEq] at h
      have hdl : check_daily_loss s.daily_pnl s.bankroll s.config = false := by
        simpa using h1
      have hdd : check_drawdown s.bankroll s.peak_equity s.config = false := by
        simpa using h2
      refine ⟨fun ht => ?_, fun _ ht => ?_, fun _ _ hle => ?_, fun _ _ _ => ?_⟩
      · rw [hdl] at ht; cases ht
      · rw [hdd] at ht; cases ht
      · exact absurd hle (not_le.mpr (lt_of_not_le h3))
      · refine ⟨v, rfl, ?_⟩
        by_cases hb : v.breaches = []
        · rw [if_neg (by simp [hb]), Prod.mk.injEq] at h
          rw [← h.1]
          exact ⟨rfl, rfl, by simp [hb]⟩
        · rw [if_pos (by simpa using hb), Prod.mk.injEq] at h
          rw [← h.1]
          exact ⟨rfl, rfl, by simp [hb]⟩

/-- C1 counterexample: with zero bankroll and one open position the
daily-loss halt condition holds, yet `evaluate_trade` resolves to no
decision at all — the `parametric_var` call inside `_current_var`
divides `total_exposure / bankroll` by zero and the call fails, so the
claimed unconditional HALT does not happen. -/
theorem evaluate_trade_priority_cex :
    check_daily_loss cexZeroBankState.daily_pnl cexZeroBankState.bankroll
      cexZeroBankState.config = true ∧
    evaluate_trade zf zf cexZeroBankState (7/10) (11/20) ("m2") ("") = none := by
  constructor
  · norm_num [check_daily_loss, cexZeroBankState]
  · norm_num [evaluate_trade, check_daily_loss, current_var, parametric_var,
      cexZeroBankState, cexPos]

/-- Witness for C1 on the daily-loss state (−4 % daily P&L): the
returned decision is a HALT with `daily_loss_halt = true`. -/
theorem evaluate_trade_priority_witness :
    dailyLossDecision.action = "HALT" ∧ dailyLossDecision.daily_loss_halt = true := by
  have hEval : evaluate_trade zf zf dailyLossState (7/10) (11/20) ("m2") ("") =
      some (dailyLossDecision, dailyLossState) := by
    norm_num [evaluate_trade, check_daily_loss, current_var, parametric_var,
      dailyLossState, dailyLossDecision, DEFAULT_CONFIG]
  exact (evaluate_trade_priority zf zf dailyLossState (7/10) (11/20) ("m2") ("")
    dailyLossDecision dailyLossState hEval).1
    (by norm_num [check_daily_loss, dailyLossState, DEFAULT_CONFIG])

/-- C3 (amended): for every non-empty position list and every nonzero
bankroll (negative included), `parametric_var` completes its breach
evaluation, flagging a concurrent-positions breach iff the position
count exceeds `max_concurrent_positions` and a portfolio-risk breach
iff `total_exposure / bankroll` exceeds `max_portfolio_risk`; with
`bankroll = 0` the unguarded breach division is undefined and the call
fails. -/
theorem parametric_var_breach_spec (sqrtA zA : ℚ → ℚ) (positions : List Position)
    (bankroll : ℚ) (config : BotConfig)
    (hne : positions ≠ []) (hb : bankroll ≠ 0) :
    ∃ v, parametric_var sqrtA zA positions bankroll config = some v ∧
      (("concurrent_positions" ∈ v.breaches) ↔
        config.var.max_concurrent_positions < positions.length) ∧
      (("portfolio_risk" ∈ v.breaches) ↔
        config.var.max_portfolio_risk <
          (positions.map Position.cost_basis).sum / bankroll) ∧
      v.num_positions = positions.length := by
  simp only [parametric_var, if_neg hne, if_neg hb]
  refine ⟨_, rfl, ?_, ?_, rfl⟩
  · by_cases hc : config.var.max_concurrent_positions < positions.length <;>
      by_cases hp : config.var.max_portfolio_risk <
        (positions.map Position.cost_basis).sum / bankroll <;>
      simp [hc, hp]
  · by_cases hc : config.var.max_concurrent_positions < positions.length <;>
      by_cases hp : config.var.max_portfolio_risk <
        (positions.map Position.cost_basis).sum / bankroll <;>
      simp [hc, hp]

/-- C3 counterexample: a non-empty position list with bankroll 0 does
not complete — the breach check's division `total_exposure / bankroll`
raises, so the claimed "for every bankroll ≤ 0" evaluation fails. -/
theorem parametric_var_breach_cex :
    parametric_var zf zf [cexPos] 0 DEFAULT_CONFIG = none := by
  norm_num [parametric_var, cexPos, DEFAULT_CONFIG]

/-- Witness for C3 at a negative bankroll: the breach evaluation
completes and flags nothing (1 position ≤ 10; exposure ratio is
negative). -/
theorem parametric_var_breach_spec_witness :
    ∃ v, parametric_var zf zf [cexPos] (-50) DEFAULT_CONFIG = some v ∧
      (("concurrent_positions" ∈ v.breaches) ↔
        DEFAULT_CONFIG.var.max_concurrent_positions < [cexPos].length) ∧
      (("portfolio_risk" ∈ v.breaches) ↔
        DEFAULT_CONFIG.var.max_portfolio_risk <
          ([cexPos].map Position.cost_basis).sum / (-50 : ℚ)) ∧
      v.num_positions = [cexPos].length :=
  parametric_var_breach_spec zf zf [cexPos] (-50) DEFAULT_CONFIG
    (by simp) (by norm_num)

/-- C2 (amended): when the edge or confidence gate fails, `size_bet`
returns an all-zero sizing that still reports the edge; when both
gates pass and `min_bet_fraction ≤ max_bet_fraction`, the scaled
fraction is clamped into `[min_bet_fraction, max_bet_fraction]` (the
minimum floor applies even to a smaller or zero raw tier-scaled
fraction), and the rounded bet size is strictly positive whenever
additionally `bankroll > 0` and `min_bet_fraction × bankroll > 1/200`
(two-decimal rounding sends smaller products to zero). -/
theorem size_bet_spec (pw mp bank : ℚ) (config : BotConfig) :
    (edge_for_binary pw mp < config.kelly.min_edge ∨
        pw < config.kelly.min_confidence →
      size_bet pw mp bank config =
        { raw_fraction := 0, scaled_fraction := 0, bet_size := 0
          edge := edge_for_binary pw mp, expected_value := 0
          kelly_multiplier := 0 }) ∧
    (config.kelly.min_edge ≤ edge_for_binary pw mp →
     config.kelly.min_confidence ≤ pw →
      (size_bet pw mp bank config).edge = edge_for_binary pw mp ∧
      (config.kelly.min_bet_fraction ≤ config.kelly.max_bet_fraction →
        config.kelly.min_bet_fraction ≤ (size_bet pw mp bank config).scaled_fraction ∧
        (size_bet pw mp bank config).scaled_fraction ≤ config.kelly.max_bet_fraction) ∧
      (config.kelly.min_bet_fraction ≤ config.kelly.max_bet_fraction →
       0 < bank → 1/200 < config.kelly.min_bet_fraction * bank →
        0 < (size_bet pw mp bank config).bet_size)) := by
  constructor
  · intro hgate
    simp only [size_bet]
    rw [if_pos hgate]
  · intro he hc
    have hgate : ¬(edge_for_binary pw mp < config.kelly.min_edge ∨
        pw < config.kelly.min_confidence) := by
      push_neg
      exact ⟨he, hc⟩
    simp only [size_bet]
    rw [if_neg hgate]
    refine ⟨rfl, fun hmm => ⟨le_min (le_max_right _ _) hmm, min_le_right _ _⟩,
      fun hmm hbank hprod => ?_⟩
    have h1 : config.kelly.min_bet_fraction ≤
        min (max (classic_kelly pw (if 0 < mp then 1 / mp else 0) *
          kelly_multiplier (edge_for_binary pw mp) config.kelly)
          config.kelly.min_bet_fraction) config.kelly.max_bet_fraction :=
      le_min (le_max_right _ _) hmm
    have h2 : config.kelly.min_bet_fraction * bank ≤
        min (max (classic_kelly pw (if 0 < mp then 1 / mp else 0) *
          kelly_multiplier (edge_for_binary pw mp) config.kelly)
          config.kelly.min_bet_fraction) config.kelly.max_bet_fraction * bank :=
      mul_le_mul_of_nonneg_right h1 hbank.le
    exact round2_pos (lt_of_lt_of_le hprod h2)

/-- C2 counterexample: with the default configuration, positive
`min_bet_fraction` (0.005) and positive bankroll 0.10, the gates pass
(edge 0.05, confidence 0.65) yet `bet_size` rounds to 0, so the
claimed strict positivity fails. -/
theorem size_bet_spec_cex :
    (0 : ℚ) < DEFAULT_CONFIG.kelly.min_bet_fraction ∧ (0 : ℚ) < 1/10 ∧
    ¬(edge_for_binary (13/20) (3/5) < DEFAULT_CONFIG.kelly.min_edge ∨
        (13/20 : ℚ) < DEFAULT_CONFIG.kelly.min_confidence) ∧
    (size_bet (13/20) (3/5) (1/10) DEFAULT_CONFIG).scaled_fraction = 1/32 ∧
    (size_bet (13/20) (3/5) (1/10) DEFAULT_CONFIG).bet_size = 0 := by
  refine ⟨by norm_num [DEFAULT_CONFIG], by norm_num, ?_, ?_, ?_⟩
  · norm_num [edge_for_binary, DEFAULT_CONFIG]
  · norm_num [size_bet, edge_for_binary, DEFAULT_CONFIG, classic_kelly,
      kelly_multiplier, sortTiers, insertTier]
  · norm_num [size_bet, edge_for_binary, DEFAULT_CONFIG, classic_kelly,
      kelly_multiplier, sortTiers, insertTier, round2, round_half_even]

/-- Witness for C2 at the default configuration with bankroll 5000:
both gates pass and the bet size is strictly positive. -/
theorem size_bet_spec_witness :
    (size_bet (7/10) (11/20) 5000 DEFAULT_CONFIG).edge =
      edge_for_binary (7/10) (11/20) ∧
    DEFAULT_CONFIG.kelly.min_bet_fraction ≤
      (size_bet (7/10) (11/20) 5000 DEFAULT_CONFIG).scaled_fraction ∧
    (size_bet (7/10) (11/20) 5000 DEFAULT_CONFIG).scaled_fraction ≤
      DEFAULT_CONFIG.kelly.max_bet_fraction ∧
    0 < (size_bet (7/10) (11/20) 5000 DEFAULT_CONFIG).bet_size := by
  have h := size_bet_spec (7/10) (11/20) 5000 DEFAULT_CONFIG
  have hg := h.2 (by norm_num [edge_for_binary, DEFAULT_CONFIG])
    (by norm_num [DEFAULT_CONFIG])
  have hcl := hg.2.1 (by norm_num [DEFAULT_CONFIG])
  exact ⟨hg.1, hcl.1, hcl.2,
    hg.2.2 (by norm_num [DEFAULT_CONFIG]) (by norm_num)
      (by norm_num [DEFAULT_CONFIG])⟩

/-- When every market price is outside (0,1), every raw per-leg Kelly
fraction in `multi_outcome_kelly` is zero, so their sum is zero. -/
theorem mok_raw_sum_zero (ps qs : List ℚ) (h : ∀ mp ∈ qs, mp ≤ 0 ∨ 1 ≤ mp) :
    (List.zipWith
      (fun p mp => if mp ≤ 0 ∨ 1 ≤ mp then 0 else max (classic_kelly p (1 / mp)) 0)
      ps qs).sum = 0 := by
  induction ps generalizing qs with
  | nil => simp
  | cons p ps ih =>
    cases qs with
    | nil => simp
    | cons q qs =>
      have hq := h q (by simp)
      rw [List.zipWith_cons_cons, List.sum_cons, if_pos hq,
        ih qs (fun mp hm => h mp (by simp [hm])), add_zero]

/-- C5: `multi_outcome_kelly` errors on mismatched input lengths,
returns an all-zero list of the right length when every price lies
outside (0,1), and its total allocation never exceeds
`fraction × bankroll` beyond the per-leg two-decimal rounding slack. -/
theorem multi_outcome_kelly_spec (probs prices : List ℚ) (bank frac : ℚ) :
    (probs.length ≠ prices.length →
      multi_outcome_kelly probs prices bank frac =
        .error ("probabilities and market_prices must have same length")) ∧
    (probs.length = prices.length → (∀ mp ∈ prices, mp ≤ 0 ∨ 1 ≤ mp) →
      multi_outcome_kelly probs prices bank frac =
        .ok (List.replicate probs.length 0)) ∧
    (0 ≤ bank → 0 ≤ frac →
      ∀ l, multi_outcome_kelly probs prices bank frac = .ok l →
        l.sum ≤ frac * bank + (l.length : ℚ) / 200) := by
  refine ⟨fun hlen => by simp [multi_outcome_kelly, hlen], ?_, ?_⟩
  · intro hlen hout
    have hnn : ¬(probs.length ≠ prices.length) := by simp [hlen]
    have hsum := mok_raw_sum_zero probs prices hout
    simp only [multi_outcome_kelly, if_neg hnn]
    rw [if_pos (le_of_eq hsum)]
  · intro hbank hfrac l hl
    by_cases hlen : probs.length ≠ prices.length
    · simp [multi_outcome_kelly, hlen] at hl
    · simp only [multi_outcome_kelly, if_neg hlen] at hl
      by_cases ht : (List.zipWith
          (fun p mp => if mp ≤ 0 ∨ 1 ≤ mp then 0
                       else max (classic_kelly p (1 / mp)) 0)
          probs prices).sum ≤ 0
      · rw [if_pos ht] at hl
        simp only [Except.ok.injEq] at hl
        rw [← hl]
        have h0 : (0 : ℚ) ≤ frac * bank := mul_nonneg hfrac hbank
        have h1 : (0 : ℚ) ≤ ((List.replicate probs.length (0 : ℚ)).length : ℚ) / 200 := by
          positivity
        simp only [List.sum_replicate, smul_zero]
        linarith
      · rw [if_neg ht] at hl
        simp only [Except.ok.injEq] at hl
        rw [← hl]
        have htot : 0 < (List.zipWith
            (fun p mp => if mp ≤ 0 ∨ 1 ≤ mp then 0
                         else max (classic_kelly p (1 / mp)) 0)
            probs prices).sum := not_le.mp ht
        set raw := List.zipWith
            (fun p mp => if mp ≤ 0 ∨ 1 ≤ mp then 0
                         else max (classic_kelly p (1 / mp)) 0)
            probs prices with hraw
        have hassoc : (raw.map (fun r =>
            round2 (r * min (frac / raw.sum) 1 * bank))).sum =
            (raw.map (fun r =>
              round2 (r * (min (frac / raw.sum) 1 * bank)))).sum := by
          simp only [mul_assoc]
        have hle := sum_map_round2_le raw (min (frac / raw.sum) 1 * bank)
        have h5 : raw.sum * min (frac / raw.sum) 1 ≤ frac := by
          have h6 : raw.sum * min (frac / raw.sum) 1 ≤
              raw.sum * (frac / raw.sum) :=
            mul_le_mul_of_nonneg_left (min_le_left _ _) htot.le
          have h8 : raw.sum * (frac / raw.sum) = frac := by
            rw [mul_comm raw.sum (frac / raw.sum), div_mul_cancel₀ frac htot.ne']
          linarith
        have h7 : raw.sum * (min (frac / raw.sum) 1 * bank) ≤ frac * bank := by
          have h9 := mul_le_mul_of_nonneg_right h5 hbank
          nlinarith [h9]
        have hlen2 : (raw.map (fun r =>
            round2 (r * min (frac / raw.sum) 1 * bank))).length = raw.length := by
          simp
        rw [hassoc, hlen2]
        linarith [hle, h7]

/-- Witness for C5: a length mismatch errors; all-degenerate prices
give the zero list; a concrete two-leg market stays within the cap. -/
theorem multi_outcome_kelly_spec_witness :
    multi_outcome_kelly [(1 : ℚ)] [] 1000 (1/4) =
      .error ("probabilities and market_prices must have same length") ∧
    multi_outcome_kelly [(3/5 : ℚ), 2/5] [0, 2] 500 (1/4) =
      .ok (List.replicate 2 0) ∧
    multi_outcome_kelly [(3/5 : ℚ), 2/5] [1/2, 1/2] 1000 (1/4) = .ok [200, 0] ∧
    ([200, (0 : ℚ)].sum ≤ 1/4 * 1000 + (([200, (0 : ℚ)].length : ℚ)) / 200) := by
  have hok : multi_outcome_kelly [(3/5 : ℚ), 2/5] [1/2, 1/2] 1000 (1/4) =
      .ok [200, 0] := by
    norm_num [multi_outcome_kelly, classic_kelly, List.zipWith, round2,
      round_half_even]
  refine ⟨(multi_outcome_kelly_spec [1] [] 1000 (1/4)).1 (by simp),
    (multi_outcome_kelly_spec [3/5, 2/5] [0, 2] 500 (1/4)).2.1 (by simp)
      (by intro mp hm; fin_cases hm <;> norm_num), hok, ?_⟩
  have := (multi_outcome_kelly_spec [3/5, 2/5] [1/2, 1/2] 1000 (1/4)).2.2
    (by norm_num) (by norm_num) [200, 0] hok
  simpa using this

/-- C6 (amended): `historical_var` returns 0 for an empty series; for
a non-empty series it returns the negation, floored at 0, of the
element of the ascending-sorted series at index
`max(⌊(1−confidence)·n⌋, 0)` whenever that index is in range — which
holds for every confidence > 0 — and fails (out-of-range subscript)
otherwise; an all-non-negative series always yields 0, and the spec's
worked example yields 50. -/
theorem historical_var_spec (l : List ℚ) (c : ℚ) :
    (l = [] → historical_var l c = some 0) ∧
    (l ≠ [] → historical_var l c =
      ((sortAsc l)[(max ⌊(1 - c) * (l.length : ℚ)⌋ 0).toNat]?).map
        (fun v => max (-v) 0)) ∧
    (0 < c → l ≠ [] → (historical_var l c).isSome = true) ∧
    ((∀ x ∈ l, 0 ≤ x) → ∀ v, historical_var l c = some v → v = 0) ∧
    historical_var [-50, -30, -10, 0, 10, 20, 30, 40, 50, 60] (19/20) = some 50 := by
  refine ⟨fun he => by simp [historical_var, he], fun hne => by
      simp [historical_var, hne], ?_, ?_, ?_⟩
  · intro hc hne
    have hn : 0 < l.length := List.length_pos.mpr hne
    have hfl : ⌊(1 - c) * (l.length : ℚ)⌋ < (l.length : ℤ) := by
      apply Int.floor_lt.mpr
      push_cast
      have hnq : (0 : ℚ) < (l.length : ℚ) := by exact_mod_cast hn
      nlinarith
    have hidx : (max ⌊(1 - c) * (l.length : ℚ)⌋ 0).toNat < (sortAsc l).length := by
      rw [length_sortAsc]
      omega
    have hg := List.getElem?_eq_getElem hidx
    simp [historical_var, hne, hg]
  · intro hpos v hv
    by_cases hne : l = []
    · simp [historical_var, hne] at hv
      exact hv.symm
    · simp only [historical_var, if_neg hne] at hv
      rcases Option.map_eq_some'.mp hv with ⟨e, hge, hmax⟩
      obtain ⟨hlt, rfl⟩ := List.getElem?_eq_some.mp hge
      have hmem : (sortAsc l)[(max ⌊(1 - c) * (l.length : ℚ)⌋ 0).toNat] ∈ sortAsc l :=
        List.getElem_mem hlt
      have h0 : 0 ≤ (sortAsc l)[(max ⌊(1 - c) * (l.length : ℚ)⌋ 0).toNat] :=
        hpos _ (mem_sortAsc.mp hmem)
      rw [← hmax]
      exact max_eq_right (by linarith)
  · norm_num [historical_var, sortAsc, insertSorted, List.cons_ne_nil]

/-- C6 counterexample: at confidence 0 with the one-element series
`[1]` the claimed index is 1 = n, out of range, and the call fails
instead of returning the claimed sorted-series element. -/
theorem historical_var_cex : historical_var [(1 : ℚ)] 0 = none := by
  norm_num [historical_var, sortAsc, insertSorted, List.cons_ne_nil]

/-- Witness for C6: the worked example through the theorem, plus a
non-empty series at positive confidence resolving to a value. -/
theorem historical_var_spec_witness :
    historical_var [-50, -30, -10, 0, 10, 20, 30, 40, 50, 60] (19/20) = some 50 ∧
    (historical_var [(1 : ℚ), 2] (1/2)).isSome = true :=
  ⟨(historical_var_spec [] 0).2.2.2.2,
   (historical_var_spec [(1 : ℚ), 2] (1/2)).2.2.1 (by norm_num) (by simp)⟩
